import Mathlib

set_option autoImplicit false

namespace NilAgent

/-! Shallow embedding of the deployment and funding orchestrator of the
nilAIagent repository.  The external collaborators (ledger RPC client and
faucet) are modelled as oracles: a function giving the result of the k-th
balance query, a function saying whether the i-th faucet call returns
without throwing, and a function saying whether the k-th code poll observes
non-empty code.  Each routine is translated from the TypeScript source and
additionally returns the trace of observable events it performs. -/

/-- Oracle for the funding collaborators: `bal k` is the result of the k-th
`getBalance` query and `ok i` tells whether the i-th `topUp` (faucet) call
returns without throwing. -/
structure FundingEnv where
  bal : Nat → Nat
  ok : Nat → Bool

/-- Observable events of a funding routine: a balance query with its result,
or a faucet request with its amount and whether the call returned. -/
inductive FundEvent where
  | read (result : Nat)
  | request (amount : Nat) (ok : Bool)
  deriving DecidableEq, Repr

/-- The attempt schedule of `ensureAdequateFunding`
(`src/action-providers/nil-contract`, schemas.ts lines 210-214):
double the required amount, then the exact amount, then half of it
(BigInt division, which truncates). -/
def fundAttempts (required : Nat) : List Nat :=
  [required * 2, required, required / 2]

/-- The top-up loop of `ensureAdequateFunding` (schemas.ts lines 216-244):
for each candidate amount, call `topUp`; if it throws, continue with the next
amount; if it returns, re-query the balance and stop with success when the
fresh balance reaches the required amount.  `i` counts faucet calls and `q`
counts balance queries made so far. -/
def fundLoop (required : Nat) (env : FundingEnv) :
    List Nat → Nat → Nat → Bool × List FundEvent
  | [], _, _ => (false, [])
  | amount :: rest, i, q =>
    if env.ok i then
      let nb := env.bal q
      if required ≤ nb then
        (true, [FundEvent.request amount true, FundEvent.read nb])
      else
        let r := fundLoop required env rest (i + 1) (q + 1)
        (r.1, FundEvent.request amount true :: FundEvent.read nb :: r.2)
    else
      let r := fundLoop required env rest (i + 1) q
      (r.1, FundEvent.request amount false :: r.2)

/-- `ensureAdequateFunding` (schemas.ts lines 190-251): query the current
balance; if it already meets the requirement, succeed at once; otherwise run
the three-amount top-up schedule.  Returns the reported result together with
the trace of balance reads and faucet requests. -/
def ensureAdequateFunding (required : Nat) (env : FundingEnv) :
    Bool × List FundEvent :=
  let b0 := env.bal 0
  if required ≤ b0 then (true, [FundEvent.read b0])
  else
    let r := fundLoop required env (fundAttempts required) 0 1
    (r.1, FundEvent.read b0 :: r.2)

/-- The retry loop of `tryTopUp` (part_004 lines 128-159): call `topUp`; if
it returns without throwing, report success immediately; if it throws, halve
the amount and retry, up to `fuel` attempts.  No balance query is ever made. -/
def tryTopUpLoop (env : FundingEnv) : Nat → Nat → Nat → Bool × List FundEvent
  | 0, _, _ => (false, [])
  | fuel + 1, i, amount =>
    if env.ok i then (true, [FundEvent.request amount true])
    else
      let r := tryTopUpLoop env fuel (i + 1) (amount / 2)
      (r.1, FundEvent.request amount false :: r.2)

/-- `tryTopUp` (part_004 lines 128-159) with its default of 3 retries. -/
def tryTopUp (env : FundingEnv) (initialAmount : Nat) : Bool × List FundEvent :=
  tryTopUpLoop env 3 0 initialAmount

/-- The amounts of the faucet requests appearing in a funding trace. -/
def faucetAmounts : List FundEvent → List Nat
  | [] => []
  | FundEvent.request a _ :: t => a :: faucetAmounts t
  | FundEvent.read _ :: t => faucetAmounts t

/-- The results of the balance queries appearing in a funding trace. -/
def readEvents : List FundEvent → List Nat
  | [] => []
  | FundEvent.request _ _ :: t => readEvents t
  | FundEvent.read v :: t => v :: readEvents t

/-- `l₁` is an initial segment of `l₂`. -/
def isInitialSegmentOf (l₁ l₂ : List Nat) : Prop := ∃ t, l₁ ++ t = l₂

/-- Receipt status as inspected by `waitForContractDeployment`
(schemas.ts lines 1310-1329). -/
inductive ReceiptStatus where
  | success
  | insufficientFunds
  | failed
  deriving DecidableEq, Repr

/-- Oracle for the confirmation collaborators: whether `waitTillCompleted`
returns without throwing, the receipt returned by
`getTransactionReceiptByHash`, and whether the k-th `getCode` poll observes
non-empty code. -/
structure ConfirmEnv where
  waitOk : Bool
  receipt : Option ReceiptStatus
  codeAt : Nat → Bool

/-- The progressive backoff of the code-polling loop (schemas.ts line 1345):
`min (5 + attempt) 30` seconds before the next poll. -/
def waitTime (attempt : Nat) : Nat := min (5 + attempt) 30

/-- The bytecode-existence polling loop of `waitForContractDeployment`
(schemas.ts lines 1335-1349): up to `fuel` polls, stopping with success as
soon as non-empty code is observed.  Returns the result and the number of
polls performed. -/
def codePollLoop (env : ConfirmEnv) : Nat → Nat → Bool × Nat
  | 0, polls => (false, polls)
  | fuel + 1, polls =>
    if env.codeAt polls then (true, polls + 1)
    else codePollLoop env fuel (polls + 1)

/-- `waitForContractDeployment` (schemas.ts lines 1299-1357): wait for the
transaction, inspect the receipt (absent, InsufficientFunds or any
non-Success status reports failure), then poll for contract code with a hard
limit of 30 attempts.  Returns the result and the number of code polls. -/
def waitForContractDeployment (env : ConfirmEnv) : Bool × Nat :=
  if env.waitOk then
    match env.receipt with
    | none => (false, 0)
    | some ReceiptStatus.insufficientFunds => (false, 0)
    | some ReceiptStatus.failed => (false, 0)
    | some ReceiptStatus.success => codePollLoop env 30 0
  else (false, 0)

/-- The contract-complexity multiplier of `deployContract`
(schemas.ts lines 451-454), with BigInt division translated to `Nat`
division: `5 * 10 / 20` and `12 * 10 / 10` evaluated exactly as the
TypeScript BigInt expressions do. -/
def contractComplexityMultiplier (contractType : String) : Nat :=
  if contractType = "TOKEN" then 2
  else if contractType = "NFT" then 5 * 10 / 20
  else 12 * 10 / 10

/-- The fee credit computed by `deployContract` (schemas.ts line 456). -/
def feeCredit (contractType : String) (gasPrice : Nat) : Nat :=
  contractComplexityMultiplier contractType * gasPrice

/-- Modelled from the spec: the fee-credit table as §4.2 documents it —
an exact rational multiplication with simple ≈ 1.2×, token ≈ 2× and
NFT ≈ 2.5× — used to compare the source computation against the
specification. -/
def specFeeCredit (contractType : String) (gasPrice : ℚ) : ℚ :=
  if contractType = "TOKEN" then 2 * gasPrice
  else if contractType = "NFT" then (5 / 2) * gasPrice
  else (6 / 5) * gasPrice

/-- `generateRandomSalt` of schemas.ts (lines 139-145) and of the
supply-chain provider (part_000 lines 214-219):
`BigInt(Math.floor(Math.random() * 10000))`, with `Math.random()` modelled as
a rational `r` with `0 ≤ r < 1`. -/
def generateRandomSalt (r : ℚ) : ℤ := Int.floor (r * 10000)

/-- Big-endian value of a byte list, as `BigInt` of the hex string of
`crypto.randomBytes` computes it. -/
def bytesToNat : List Nat → Nat
  | [] => 0
  | b :: rest => b * 256 ^ rest.length + bytesToNat rest

/-- `generateRandomSalt` of part_004 (lines 82-85):
`BigInt` of the hex encoding of 8 cryptographically random bytes. -/
def generateRandomSaltCrypto (randomBytes : List Nat) : Nat :=
  bytesToNat randomBytes

/-- One hex digit (lowercase) of a value below 16. -/
def byteToHexDigit (n : Nat) : Char :=
  if n < 10 then Char.ofNat (48 + n) else Char.ofNat (87 + n)

/-- Two hex digits of one byte. -/
def byteToHex (b : Nat) : List Char :=
  [byteToHexDigit (b / 16), byteToHexDigit (b % 16)]

/-- `bytesToHex` of niljs as used by `calculateContractAddress`: the 0x-prefixed
lowercase hex string of a byte array. -/
def bytesToHex (bs : List Nat) : String :=
  "0x" ++ String.mk (List.foldr (fun b acc => byteToHex b ++ acc) [] bs)

/-- The transaction envelope built by `calculateContractAddress`
(schemas.ts lines 172-179); the `to` field is stored as given
(`new Uint8Array(20)`, i.e. 20 zero bytes). -/
structure TransactionEnvelope where
  isDeploy : Bool
  chainId : Nat
  toAddr : List Nat
  data : List Nat
  authData : List Nat
  seqno : Nat

/-- `calculateContractAddress` of schemas.ts (lines 163-187): build an
envelope whose `to` field is `new Uint8Array(20)` and return the hex encoding
of that field.  The salt, bytecode, abi and chain id do not reach the
returned value. -/
def calculateContractAddress (shardId : Nat) (salt : Nat) (bytecode : List Nat)
    (abi : List String) (chainId : Nat) : String :=
  let transaction : TransactionEnvelope :=
    { isDeploy := true
      chainId := chainId
      toAddr := List.replicate 20 0
      data := bytecode
      authData := []
      seqno := 0 }
  bytesToHex transaction.toAddr

/-- A ledger client, with a creation token `uid` standing for the object
identity of the `PublicClient` instance. -/
structure PClient where
  endpoint : String
  shard : Nat
  uid : Nat
  deriving DecidableEq, Repr

/-- The per-shard client registry of the provider: the `clients` map and a
counter supplying fresh object identities. -/
structure ProviderState where
  clients : List (Nat × PClient)
  nextUid : Nat

/-- `Map.get` on the registry. -/
def lookupClient : List (Nat × PClient) → Nat → Option PClient
  | [], _ => none
  | (k, c) :: rest, shardId => if k = shardId then some c else lookupClient rest shardId

/-- `getClient` (schemas.ts lines 100-113, identically part_004 lines 47-60):
if the registry has no entry for the shard, create a client and store it;
then return the stored client. -/
def getClient (rpcEndpoint : String) (st : ProviderState) (shardId : Nat) :
    PClient × ProviderState :=
  match lookupClient st.clients shardId with
  | some c => (c, st)
  | none =>
    let c : PClient := ⟨rpcEndpoint, shardId, st.nextUid⟩
    (c, ⟨st.clients ++ [(shardId, c)], st.nextUid + 1⟩)

/-- Any sequence of provider operations touching the registry: every
operation of the provider reaches the registry only through `getClient`. -/
def runOps (rpcEndpoint : String) : ProviderState → List Nat → ProviderState
  | st, [] => st
  | st, s :: rest => runOps rpcEndpoint (getClient rpcEndpoint st s).2 rest

/-- The two deployment strategies of `deployContract`:
`smartAccount` is the internal strategy (an ephemeral funded account submits
the deployment), `direct` is the external strategy (the pre-derived contract
address is funded directly and a self-contained deployment is submitted). -/
inductive Strategy where
  | smartAccount
  | direct
  deriving DecidableEq, Repr

/-- Outcomes of the two strategies as `deployContract` observes them:
`none` means the strategy routine threw before returning (funding exhaustion
or submission error); `some c` means it returned a hash and address and the
subsequent `waitForContractDeployment` returned `c`. -/
structure StrategyEnv where
  internalOutcome : Option Bool
  directOutcome : Option Bool

/-- The possible results of `deployContract` (schemas.ts lines 493-596):
a success message, the verification-timed-out report of the internal path,
the funding-issues report of the external path, or a
`ContractDeploymentError` thrown from the outer catch. -/
inductive DeployOutcome where
  | internalSuccess
  | internalTimeoutReport
  | directSuccess
  | directFundingReport
  | deployError
  deriving DecidableEq, Repr

/-- The external-strategy tail of `deployContract` (schemas.ts lines 542-587):
run the external deployment; an exception propagates to the outer catch,
otherwise a failed confirmation produces the funding-issues report. -/
def runDirectStrategy (env : StrategyEnv) (attempted : List Strategy) :
    DeployOutcome × List Strategy :=
  match env.directOutcome with
  | none => (DeployOutcome.deployError, attempted ++ [Strategy.direct])
  | some true => (DeployOutcome.directSuccess, attempted ++ [Strategy.direct])
  | some false => (DeployOutcome.directFundingReport, attempted ++ [Strategy.direct])

/-- The strategy selection of `deployContract` (schemas.ts lines 493-587):
when internal deployment is requested, try it first; if the internal routine
throws, fall through to the external strategy; if it returns, report its
confirmation result directly — a failed confirmation returns the timeout
report without reaching the external path.  Returns the outcome and the list
of strategies attempted, in order. -/
def deployContract (useInternalDeployment : Bool) (env : StrategyEnv) :
    DeployOutcome × List Strategy :=
  if useInternalDeployment then
    match env.internalOutcome with
    | some true => (DeployOutcome.internalSuccess, [Strategy.smartAccount])
    | some false => (DeployOutcome.internalTimeoutReport, [Strategy.smartAccount])
    | none => runDirectStrategy env [Strategy.smartAccount]
  else runDirectStrategy env []

/-- Oracle for the supply-chain deployment script: whether the retailer and
manufacturer `waitTillCompleted` calls return, what the k-th code poll of
each contract observes, and the address the retailer deployment reports. -/
structure ChainEnv where
  retailerWaitOk : Bool
  retailerCode : Nat → Bool
  manufacturerWaitOk : Bool
  manufacturerCode : Nat → Bool
  retailerAddr : Nat

/-- Observable events of `deploy-supply-chain.ts`: submitting the retailer
deployment, confirming its code, materializing and submitting the
manufacturer deployment (whose constructor arguments embed the retailer
address), and confirming the manufacturer. -/
inductive SCEvent where
  | submitRetailer
  | retailerConfirmed
  | submitManufacturer (retailerArg : Nat)
  | manufacturerConfirmed
  deriving DecidableEq, Repr

/-- The 10-attempt code-verification loop of `deploy-supply-chain.ts`
(lines 190-203 and 283-296): whether any of the 10 polls observes code. -/
def codeSeen (codeAt : Nat → Bool) : Bool := (List.range 10).any codeAt

/-- `main` of `deploy-supply-chain.ts` (lines 122-303), deployment phase:
deploy the retailer; if its completion wait throws, return; poll its code up
to 10 times and return if it never appears; only then materialize the
manufacturer request with the retailer address as constructor argument and
deploy it, with the same wait-and-poll confirmation. -/
def supplyChainTrace (env : ChainEnv) : List SCEvent :=
  SCEvent.submitRetailer ::
    (if env.retailerWaitOk then
      if codeSeen env.retailerCode then
        SCEvent.retailerConfirmed ::
          SCEvent.submitManufacturer env.retailerAddr ::
            (if env.manufacturerWaitOk then
              if codeSeen env.manufacturerCode then [SCEvent.manufacturerConfirmed]
              else []
            else [])
      else []
    else [])

/-! Helper lemmas about the funding loop. -/

theorem fundLoop_success_read (required : Nat) (env : FundingEnv) :
    ∀ (l : List Nat) (i q : Nat), (fundLoop required env l i q).1 = true →
      ∃ v pre, (fundLoop required env l i q).2 = pre ++ [FundEvent.read v] ∧
        required ≤ v := by
  intro l
  induction l with
  | nil => intro i q h; simp [fundLoop] at h
  | cons amount rest ih =>
    intro i q h
    by_cases hok : env.ok i
    · by_cases hsuff : required ≤ env.bal q
      · refine ⟨env.bal q, [FundEvent.request amount true], ?_, hsuff⟩
        simp [fundLoop, hok, hsuff]
      · have h2 : (fundLoop required env rest (i + 1) (q + 1)).1 = true := by
          simpa [fundLoop, hok, hsuff] using h
        obtain ⟨v, pre, hpre, hv⟩ := ih (i + 1) (q + 1) h2
        refine ⟨v, FundEvent.request amount true :: FundEvent.read (env.bal q) :: pre,
          ?_, hv⟩
        simp [fundLoop, hok, hsuff, hpre]
    · have h2 : (fundLoop required env rest (i + 1) q).1 = true := by
        simpa [fundLoop, hok] using h
      obtain ⟨v, pre, hpre, hv⟩ := ih (i + 1) q h2
      refine ⟨v, FundEvent.request amount false :: pre, ?_, hv⟩
      simp [fundLoop, hok, hpre]

theorem fundLoop_amounts_initial (required : Nat) (env : FundingEnv) :
    ∀ (l : List Nat) (i q : Nat),
      (∃ t, faucetAmounts (fundLoop required env l i q).2 ++ t = l) ∧
      ((fundLoop required env l i q).1 = false →
        faucetAmounts (fundLoop required env l i q).2 = l) := by
  intro l
  induction l with
  | nil =>
    intro i q
    exact ⟨⟨[], by simp [fundLoop, faucetAmounts]⟩, fun _ => by simp [fundLoop, faucetAmounts]⟩
  | cons amount rest ih =>
    intro i q
    by_cases hok : env.ok i
    · by_cases hsuff : required ≤ env.bal q
      · refine ⟨⟨rest, ?_⟩, ?_⟩
        · simp [fundLoop, hok, hsuff, faucetAmounts]
        · intro hf; simp [fundLoop, hok, hsuff] at hf
      · obtain ⟨⟨t, ht⟩, hfull⟩ := ih (i + 1) (q + 1)
        have heq : faucetAmounts (fundLoop required env (amount :: rest) i q).2 =
            amount :: faucetAmounts (fundLoop required env rest (i + 1) (q + 1)).2 := by
          simp [fundLoop, hok, hsuff, faucetAmounts]
        refine ⟨⟨t, ?_⟩, ?_⟩
        · rw [heq, List.cons_append, ht]
        · intro hf
          have hf2 : (fundLoop required env rest (i + 1) (q + 1)).1 = false := by
            simpa [fundLoop, hok, hsuff] using hf
          rw [heq, hfull hf2]
    · obtain ⟨⟨t, ht⟩, hfull⟩ := ih (i + 1) q
      have heq : faucetAmounts (fundLoop required env (amount :: rest) i q).2 =
          amount :: faucetAmounts (fundLoop required env rest (i + 1) q).2 := by
        simp [fundLoop, hok, faucetAmounts]
      refine ⟨⟨t, ?_⟩, ?_⟩
      · rw [heq, List.cons_append, ht]
      · intro hf
        have hf2 : (fundLoop required env rest (i + 1) q).1 = false := by
          simpa [fundLoop, hok] using hf
        rw [heq, hfull hf2]

theorem codePollLoop_le (env : ConfirmEnv) :
    ∀ (fuel polls : Nat), (codePollLoop env fuel polls).2 ≤ polls + fuel := by
  intro fuel
  induction fuel with
  | zero => intro polls; simp [codePollLoop]
  | succ n ih =>
    intro polls
    by_cases hc : env.codeAt polls
    · have h1 : codePollLoop env (n + 1) polls = (true, polls + 1) := by
        simp [codePollLoop, hc]
      rw [h1]; omega
    · have h1 : codePollLoop env (n + 1) polls = codePollLoop env n (polls + 1) := by
        simp [codePollLoop, hc]
      rw [h1]
      have := ih (polls + 1)
      omega

/-- Claim C1 (amended): whenever `ensureAdequateFunding` reports success, the
last event of its trace is a balance query whose fresh result is at least the
required amount — success is never reported on the faucet acknowledgement
alone by this routine.  (The claim as stated fails for `tryTopUp` of
part_004, see the counterexample.) -/
theorem ensureAdequateFunding_success_reverified (required : Nat) (env : FundingEnv)
    (h : (ensureAdequateFunding required env).1 = true) :
    ∃ v pre, (ensureAdequateFunding required env).2 = pre ++ [FundEvent.read v] ∧
      required ≤ v := by
  by_cases h0 : required ≤ env.bal 0
  · exact ⟨env.bal 0, [], by simp [ensureAdequateFunding, h0], h0⟩
  · have h1 : (fundLoop required env (fundAttempts required) 0 1).1 = true := by
      simpa [ensureAdequateFunding, h0] using h
    obtain ⟨v, pre, hpre, hv⟩ := fundLoop_success_read required env _ 0 1 h1
    refine ⟨v, FundEvent.read (env.bal 0) :: pre, ?_, hv⟩
    simp [ensureAdequateFunding, h0, hpre]

/-- Claim C1 witness: a run in which the fast-path balance read already shows
a sufficient balance. -/
theorem ensureAdequateFunding_success_reverified_witness :
    ∃ v pre, (ensureAdequateFunding 5 ⟨fun _ => 10, fun _ => true⟩).2 =
      pre ++ [FundEvent.read v] ∧ 5 ≤ v :=
  ensureAdequateFunding_success_reverified 5 ⟨fun _ => 10, fun _ => true⟩ (by decide)

/-- Claim C1 (counterexample): against a faucet that acknowledges every
request while the balance stays 0, `tryTopUp` of part_004 reports success
with a trace containing no balance query at all — it trusts the faucet
acknowledgement alone, refuting the claim for this funding routine. -/
theorem tryTopUp_trusts_faucet_ack :
    (tryTopUp ⟨fun _ => 0, fun _ => true⟩ 20).1 = true ∧
    (tryTopUp ⟨fun _ => 0, fun _ => true⟩ 20).2 = [FundEvent.request 20 true] ∧
    readEvents (tryTopUp ⟨fun _ => 0, fun _ => true⟩ 20).2 = [] ∧
    FundingEnv.bal ⟨fun _ => 0, fun _ => true⟩ 0 = 0 ∧ (0 : Nat) < 20 := by
  decide

/-- Claim C5: every retry loop is bounded — `ensureAdequateFunding` issues at
most 3 faucet requests, `waitForContractDeployment` performs at most 30 code
polls, and the progressive backoff is capped at 30 seconds and grows by one
second per attempt below the cap. -/
theorem boundedRetrySchedules :
    (∀ (required : Nat) (env : FundingEnv),
      (faucetAmounts (ensureAdequateFunding required env).2).length ≤ 3) ∧
    (∀ env : ConfirmEnv, (waitForContractDeployment env).2 ≤ 30) ∧
    (∀ attempt, waitTime attempt ≤ 30) ∧
    (∀ attempt, waitTime (attempt + 1) = min (waitTime attempt + 1) 30) := by
  refine ⟨?_, ?_, ?_, ?_⟩
  · intro required env
    by_cases h0 : required ≤ env.bal 0
    · simp [ensureAdequateFunding, h0, faucetAmounts]
    · obtain ⟨⟨t, ht⟩, _⟩ := fundLoop_amounts_initial required env (fundAttempts required) 0 1
      have hlen := congrArg List.length ht
      rw [List.length_append] at hlen
      have h3 : (fundAttempts required).length = 3 := by simp [fundAttempts]
      rw [h3] at hlen
      have heq : faucetAmounts (ensureAdequateFunding required env).2 =
          faucetAmounts (fundLoop required env (fundAttempts required) 0 1).2 := by
        simp [ensureAdequateFunding, h0, faucetAmounts]
      rw [heq]
      omega
  · intro env
    unfold waitForContractDeployment
    by_cases hw : env.waitOk
    · simp only [hw, if_true]
      cases hrec : env.receipt with
      | none => simp
      | some st =>
        cases st with
        | success => simpa using codePollLoop_le env 30 0
        | insufficientFunds => simp
        | failed => simp
    · simp [hw]
  · intro attempt; unfold waitTime; omega
  · intro attempt; unfold waitTime; omega

/-- Claim C6 (amended): when the initial balance is short, the faucet-request
amounts form an initial segment of the schedule double, exact, half — where
the half step is the truncating integer division `required / 2` — and a run
that never observes a sufficient balance issues exactly that whole schedule. -/
theorem ensureAdequateFunding_attempt_order (required : Nat) (env : FundingEnv)
    (h : env.bal 0 < required) :
    isInitialSegmentOf (faucetAmounts (ensureAdequateFunding required env).2)
      [required * 2, required, required / 2] ∧
    ((ensureAdequateFunding required env).1 = false →
      faucetAmounts (ensureAdequateFunding required env).2 =
        [required * 2, required, required / 2]) := by
  have h0 : ¬ required ≤ env.bal 0 := by omega
  obtain ⟨⟨t, ht⟩, hfull⟩ := fundLoop_amounts_initial required env (fundAttempts required) 0 1
  have heq : faucetAmounts (ensureAdequateFunding required env).2 =
      faucetAmounts (fundLoop required env (fundAttempts required) 0 1).2 := by
    simp [ensureAdequateFunding, h0, faucetAmounts]
  have hres : (ensureAdequateFunding required env).1 =
      (fundLoop required env (fundAttempts required) 0 1).1 := by
    simp [ensureAdequateFunding, h0]
  constructor
  · exact ⟨t, by rw [heq]; simpa [fundAttempts] using ht⟩
  · intro hf
    rw [heq, hfull (by rw [← hres]; exact hf)]
    simp [fundAttempts]

/-- Claim C6 witness: `required = 3` with a faucet that always acknowledges
and a balance that never grows issues the full schedule `[6, 3, 1]`. -/
theorem ensureAdequateFunding_attempt_order_witness :
    isInitialSegmentOf (faucetAmounts (ensureAdequateFunding 3 ⟨fun _ => 0, fun _ => true⟩).2)
      [3 * 2, 3, 3 / 2] ∧
    ((ensureAdequateFunding 3 ⟨fun _ => 0, fun _ => true⟩).1 = false →
      faucetAmounts (ensureAdequateFunding 3 ⟨fun _ => 0, fun _ => true⟩).2 =
        [3 * 2, 3, 3 / 2]) :=
  ensureAdequateFunding_attempt_order 3 ⟨fun _ => 0, fun _ => true⟩ (by decide)

/-- Claim C6 (counterexample): for the odd requirement 3, the third issued
amount is `3 / 2 = 1` (BigInt division truncates), not the exact
`3 × 0.5 = 1.5` the claim states. -/
theorem fundingSchedule_half_is_floor :
    faucetAmounts (ensureAdequateFunding 3 ⟨fun _ => 0, fun _ => true⟩).2 = [6, 3, 1] ∧
    ¬ ((1 : ℚ) = 3 * (1 / 2)) := by
  constructor
  · decide
  · norm_num

/-- Claim C7: if the balance already meets the requirement when
`ensureAdequateFunding` starts, it returns success at once and its trace
contains no faucet request. -/
theorem ensureAdequateFunding_fast_path (required : Nat) (env : FundingEnv)
    (h : required ≤ env.bal 0) :
    (ensureAdequateFunding required env).1 = true ∧
    faucetAmounts (ensureAdequateFunding required env).2 = [] := by
  constructor
  · simp [ensureAdequateFunding, h]
  · simp [ensureAdequateFunding, h, faucetAmounts]

/-- Claim C7 witness: balance 7 against requirement 5, with a faucet that
would reject everything — success is still immediate with no request. -/
theorem ensureAdequateFunding_fast_path_witness :
    (ensureAdequateFunding 5 ⟨fun _ => 7, fun _ => false⟩).1 = true ∧
    faucetAmounts (ensureAdequateFunding 5 ⟨fun _ => 7, fun _ => false⟩).2 = [] :=
  ensureAdequateFunding_fast_path 5 ⟨fun _ => 7, fun _ => false⟩ (by decide)

/-- Claim C2 (counterexample): internal deployment requested, the internal
routine submits successfully, but confirmation fails (TimedOut or
InsufficientFunds).  `deployContract` returns the verification-timed-out
report and the external strategy is attempted zero times, not once as the
claim states. -/
theorem deployContract_no_fallback_on_confirmation_failure :
    deployContract true ⟨some false, some true⟩ =
      (DeployOutcome.internalTimeoutReport, [Strategy.smartAccount]) ∧
    (deployContract true ⟨some false, some true⟩).2.count Strategy.direct = 0 := by
  decide

/-- Claim C2 (amended): the external strategy is attempted at most once in
every run; when internal deployment is requested and the internal routine
throws (funding exhaustion or submission error) it is attempted exactly once
afterward; when the internal routine returns and only confirmation fails,
`deployContract` returns the timeout report without attempting the external
strategy; without an internal request only the external strategy runs. -/
theorem deployContract_fallback_once (useInternalDeployment : Bool) (env : StrategyEnv) :
    (deployContract useInternalDeployment env).2.count Strategy.direct ≤ 1 ∧
    (useInternalDeployment = true → env.internalOutcome = none →
      (deployContract useInternalDeployment env).2 =
        [Strategy.smartAccount, Strategy.direct]) ∧
    (useInternalDeployment = true → ∀ c, env.internalOutcome = some c →
      (deployContract useInternalDeployment env).2 = [Strategy.smartAccount]) ∧
    (useInternalDeployment = false →
      (deployContract useInternalDeployment env).2 = [Strategy.direct]) := by
  rcases env with ⟨io, dr⟩
  rcases io with - | ib <;> rcases dr with - | db <;> cases useInternalDeployment <;>
    (try cases ib) <;> (try cases db) <;> decide

/-- Claim C2 witness: internal requested and the internal routine throws —
the attempted strategies are exactly internal then external. -/
theorem deployContract_fallback_once_witness :
    (deployContract true ⟨none, some true⟩).2 = [Strategy.smartAccount, Strategy.direct] :=
  (deployContract_fallback_once true ⟨none, some true⟩).2.1 rfl rfl

/-- Claim C3: if the supply-chain script submits the Manufacturer deployment,
then the Retailer completion wait returned, one of the 10 Retailer code polls
saw non-empty code, the Manufacturer constructor argument is exactly the
Retailer address, and the Retailer confirmation event strictly precedes the
Manufacturer submission in the trace; contrapositively, when Retailer
confirmation fails or times out the Manufacturer is never submitted and the
address is never substituted. -/
theorem supplyChain_dependent_ordering (env : ChainEnv) (a : Nat)
    (h : SCEvent.submitManufacturer a ∈ supplyChainTrace env) :
    env.retailerWaitOk = true ∧ codeSeen env.retailerCode = true ∧
    a = env.retailerAddr ∧
    ∃ tl, supplyChainTrace env =
      SCEvent.submitRetailer :: SCEvent.retailerConfirmed ::
        SCEvent.submitManufacturer env.retailerAddr :: tl := by
  rcases env with ⟨rwOk, rc, mwOk, mc, addr⟩
  cases rwOk with
  | false => simp [supplyChainTrace] at h
  | true =>
    cases hcs : codeSeen rc with
    | false => simp [supplyChainTrace, hcs] at h
    | true =>
      have ha : a = addr := by
        cases mwOk <;> cases hms : codeSeen mc <;>
          simp [supplyChainTrace, hcs, hms] at h <;> exact h
      subst ha
      refine ⟨rfl, rfl, rfl, ?_, ?_⟩
      · exact (if mwOk then
          if codeSeen mc then [SCEvent.manufacturerConfirmed] else []
        else [])
      · simp [supplyChainTrace, hcs]

/-- Claim C3 witness: a run in which everything confirms; the Manufacturer
submission carries the Retailer address 7 and follows the confirmation. -/
theorem supplyChain_dependent_ordering_witness :
    ChainEnv.retailerWaitOk ⟨true, fun _ => true, true, fun _ => true, 7⟩ = true ∧
    codeSeen (ChainEnv.retailerCode ⟨true, fun _ => true, true, fun _ => true, 7⟩) = true ∧
    (7 : Nat) = ChainEnv.retailerAddr ⟨true, fun _ => true, true, fun _ => true, 7⟩ ∧
    ∃ tl, supplyChainTrace ⟨true, fun _ => true, true, fun _ => true, 7⟩ =
      SCEvent.submitRetailer :: SCEvent.retailerConfirmed ::
        SCEvent.submitManufacturer
          (ChainEnv.retailerAddr ⟨true, fun _ => true, true, fun _ => true, 7⟩) :: tl :=
  supplyChain_dependent_ordering ⟨true, fun _ => true, true, fun _ => true, 7⟩ 7 (by decide)

/-- Claim C4 (the code evaluated at the failing inputs): the source computes
the NFT multiplier as `5 * 10 / 20 = 2` and the simple multiplier as
`12 * 10 / 10 = 12` under truncating BigInt division, so at gas price 10 the
fee credits are 20 and 120, while the documented exact-rational table
(2.5× and 1.2×) gives 25 and 12; only the token class agrees. -/
theorem feeCredit_truncated_multipliers :
    feeCredit "NFT" 10 = 20 ∧ specFeeCredit "NFT" 10 = 25 ∧
    feeCredit "COUNTER" 10 = 120 ∧ specFeeCredit "COUNTER" 10 = 12 ∧
    feeCredit "TOKEN" 10 = 20 ∧ specFeeCredit "TOKEN" 10 = 20 ∧
    ((20 : ℚ) ≠ 25) ∧ ((120 : ℚ) ≠ 12) := by
  refine ⟨by decide, ?_, by decide, ?_, by decide, ?_, by norm_num, by norm_num⟩ <;>
    · simp [specFeeCredit]
      norm_num

/-- Helper for Claim C8: the value of a byte list is below `256 ^ length`. -/
theorem bytesToNat_lt (bs : List Nat) (h : ∀ b ∈ bs, b < 256) :
    bytesToNat bs < 256 ^ bs.length := by
  induction bs with
  | nil => simp [bytesToNat]
  | cons b rest ih =>
    have hb : b < 256 := h b (by simp)
    have hr : bytesToNat rest < 256 ^ rest.length :=
      ih (fun x hx => h x (by simp [hx]))
    have hP : 0 < 256 ^ rest.length := pow_pos (by norm_num) _
    have hkey : b * 256 ^ rest.length + bytesToNat rest < 256 * 256 ^ rest.length := by
      nlinarith
    have hgoal : bytesToNat (b :: rest) = b * 256 ^ rest.length + bytesToNat rest := rfl
    rw [hgoal, List.length_cons, pow_succ]
    calc b * 256 ^ rest.length + bytesToNat rest
        < 256 * 256 ^ rest.length := hkey
      _ = 256 ^ rest.length * 256 := by ring

/-- Claim C8 (counterexample): `generateRandomSalt` of part_004 turns the
8 random bytes `00 00 00 00 00 00 ff ff` — a possible output of
`crypto.randomBytes(8)` — into the salt 65535, outside the claimed 0–9,999
range. -/
theorem generateRandomSaltCrypto_exceeds_range :
    generateRandomSaltCrypto [0, 0, 0, 0, 0, 0, 255, 255] = 65535 ∧
    (9999 : Nat) < 65535 := by
  decide

/-- Claim C8 (amended): the salts of schemas.ts and of the supply-chain
provider (`Math.floor(Math.random() * 10000)`) always lie in 0–9,999, while
part_004's crypto-based salt is only bounded by `2 ^ 64` (8 random bytes). -/
theorem salt_ranges (r : ℚ) (bs : List Nat) (hr0 : 0 ≤ r) (hr1 : r < 1)
    (hlen : bs.length = 8) (hb : ∀ b ∈ bs, b < 256) :
    0 ≤ generateRandomSalt r ∧ generateRandomSalt r ≤ 9999 ∧
    generateRandomSaltCrypto bs < 2 ^ 64 := by
  refine ⟨?_, ?_, ?_⟩
  · exact Int.floor_nonneg.mpr (by positivity)
  · have hq : r * 10000 < ((10000 : ℤ) : ℚ) := by
      push_cast
      nlinarith
    have h2 : generateRandomSalt r < 10000 := Int.floor_lt.mpr hq
    omega
  · have hlt := bytesToNat_lt bs hb
    rw [hlen] at hlt
    calc generateRandomSaltCrypto bs = bytesToNat bs := rfl
      _ < 256 ^ 8 := hlt
      _ = 2 ^ 64 := by norm_num

/-- Claim C8 witness: `Math.random() = 1/2` gives salt 5000, in range; a
concrete 8-byte draw stays below `2 ^ 64`. -/
theorem salt_ranges_witness :
    0 ≤ generateRandomSalt (1 / 2) ∧ generateRandomSalt (1 / 2) ≤ 9999 ∧
    generateRandomSaltCrypto [1, 2, 3, 4, 5, 6, 7, 8] < 2 ^ 64 :=
  salt_ranges (1 / 2) [1, 2, 3, 4, 5, 6, 7, 8] (by norm_num) (by norm_num)
    (by decide) (by decide)

/-- Claim C9: `calculateContractAddress` of the nil-contract provider returns
the hex encoding of 20 zero bytes for every input — shard, salt, bytecode,
abi and chain id have no effect — and therefore never equals any non-zero
address an actual deployment lands at. -/
theorem calculateContractAddress_constant_zero (s₁ a₁ : Nat) (b₁ : List Nat)
    (i₁ : List String) (c₁ s₂ a₂ : Nat) (b₂ : List Nat) (i₂ : List String)
    (c₂ : Nat) (actual : String)
    (hactual : actual ≠ "0x0000000000000000000000000000000000000000") :
    calculateContractAddress s₁ a₁ b₁ i₁ c₁ = calculateContractAddress s₂ a₂ b₂ i₂ c₂ ∧
    calculateContractAddress s₁ a₁ b₁ i₁ c₁ =
      "0x0000000000000000000000000000000000000000" ∧
    calculateContractAddress s₁ a₁ b₁ i₁ c₁ ≠ actual := by
  have hz : calculateContractAddress s₁ a₁ b₁ i₁ c₁ =
      "0x0000000000000000000000000000000000000000" := by
    show bytesToHex (List.replicate 20 0) =
      "0x0000000000000000000000000000000000000000"
    decide
  exact ⟨rfl, hz, fun he => hactual (he.symm.trans hz)⟩

/-- Claim C9 witness: two unrelated argument vectors give the same zero
address, which differs from a sample real address. -/
theorem calculateContractAddress_constant_zero_witness :
    calculateContractAddress 1 42 [222, 173] [] 5 =
      calculateContractAddress 3 7 [1, 2, 3] ["abi"] 9 ∧
    calculateContractAddress 1 42 [222, 173] [] 5 =
      "0x0000000000000000000000000000000000000000" ∧
    calculateContractAddress 1 42 [222, 173] [] 5 ≠ "0xdead" :=
  calculateContractAddress_constant_zero 1 42 [222, 173] [] 5 3 7 [1, 2, 3] ["abi"] 9
    "0xdead" (by decide)

/-! Helper lemmas about the client registry. -/

theorem lookupClient_append_some (l : List (Nat × PClient)) (k : Nat) (c : PClient)
    (x : Nat × PClient) (h : lookupClient l k = some c) :
    lookupClient (l ++ [x]) k = some c := by
  induction l with
  | nil => simp [lookupClient] at h
  | cons p rest ih =>
    rcases p with ⟨k0, c0⟩
    by_cases hk : k0 = k
    · simp [lookupClient, hk] at h ⊢
      exact h
    · simp [lookupClient, hk] at h ⊢
      exact ih h

theorem lookupClient_append_self (l : List (Nat × PClient)) (k : Nat) (c : PClient)
    (h : lookupClient l k = none) :
    lookupClient (l ++ [(k, c)]) k = some c := by
  induction l with
  | nil => simp [lookupClient]
  | cons p rest ih =>
    rcases p with ⟨k0, c0⟩
    by_cases hk : k0 = k
    · simp [lookupClient, hk] at h
    · simp [lookupClient, hk] at h ⊢
      exact ih h

theorem getClient_lookup_self (rpc : String) (st : ProviderState) (s : Nat) :
    lookupClient ((getClient rpc st s).2).clients s = some (getClient rpc st s).1 := by
  unfold getClient
  cases h : lookupClient st.clients s with
  | some c => simp [h]
  | none =>
    simp only [h]
    exact lookupClient_append_self st.clients s _ h

theorem getClient_preserves (rpc : String) (st : ProviderState) (s k : Nat) (c : PClient)
    (h : lookupClient st.clients k = some c) :
    lookupClient ((getClient rpc st s).2).clients k = some c := by
  unfold getClient
  cases hl : lookupClient st.clients s with
  | some c0 => simpa using h
  | none =>
    simp only [hl]
    exact lookupClient_append_some st.clients k c _ h

theorem runOps_preserves (rpc : String) :
    ∀ (ops : List Nat) (st : ProviderState) (k : Nat) (c : PClient),
      lookupClient st.clients k = some c →
      lookupClient (runOps rpc st ops).clients k = some c := by
  intro ops
  induction ops with
  | nil => intro st k c h; simpa [runOps] using h
  | cons s rest ih =>
    intro st k c h
    exact ih _ k c (getClient_preserves rpc st s k c h)

theorem getClient_found (rpc : String) (st : ProviderState) (s : Nat) (c : PClient)
    (h : lookupClient st.clients s = some c) : (getClient rpc st s).1 = c := by
  unfold getClient
  simp [h]

/-- Claim C10: after the first `getClient` call for a shard, the registry
permanently maps that shard to the very client instance returned then —
no later sequence of provider operations replaces or removes the entry —
and every later `getClient` call for the same shard returns that identical
instance. -/
theorem getClient_registry_stable (rpc : String) (st : ProviderState) (s : Nat)
    (ops : List Nat) :
    lookupClient (runOps rpc ((getClient rpc st s).2) ops).clients s =
      some (getClient rpc st s).1 ∧
    (getClient rpc (runOps rpc ((getClient rpc st s).2) ops) s).1 =
      (getClient rpc st s).1 := by
  have h1 := runOps_preserves rpc ops ((getClient rpc st s).2) s ((getClient rpc st s).1)
    (getClient_lookup_self rpc st s)
  exact ⟨h1, getClient_found rpc _ s _ h1⟩

end NilAgent
